import Mathlib

/-!
# Verification of the `user-notify-reborn` notification manager

Shallow embedding of the cross-platform notification library
(`src/notify.rs`, `src/error.rs`, `src/os_impl/windows/{mod,builder}.rs`,
`src/os_impl/macos/{mod,builder,delegate}.rs`) together with proofs about
the frozen specification claims.

Modelling conventions:
* Rust `String` values that flow through URLs are modelled as Lean `String`.
* Byte buffers (the UTF-8 bytes that `serde_json` and `base64` operate on)
  are modelled as `List Nat` with every element `< 256`.
* A `HashMap<String, String>` that is serialized is modelled as the
  association list of its iteration order (`Metadata`); `serde_json`
  serializes the entries in iteration order and parsing recovers exactly
  that sequence of entries.
* Fallible Rust functions returning `Result<T, Error>` become
  `Except Error T`.
* Stateful adapter objects become explicit state records, and calls into
  the native OS API are recorded as explicit effect lists; the outcome of
  a native call is an input of the model (an oracle argument), since the
  OS is outside the program.
-/

namespace UserNotify

/-- The byte strings handled by `serde_json`/`base64` (UTF-8 bytes of a
Rust `String`). -/
abbrev ByteStr := List Nat

/-- Model of `HashMap<String, String>` in its (arbitrary but fixed)
iteration order, as far as serialization is concerned. -/
abbrev Metadata := List (ByteStr × ByteStr)

/-- All bytes of a byte string are actual bytes. -/
def ValidBytes (s : ByteStr) : Prop := ∀ b ∈ s, b < 256

/-- All keys and values of a metadata map consist of actual bytes. -/
def ValidMeta (m : Metadata) : Prop :=
  ∀ p ∈ m, ValidBytes p.1 ∧ ValidBytes p.2

instance : DecidablePred ValidBytes := fun s =>
  inferInstanceAs (Decidable (∀ b ∈ s, b < 256))

instance : DecidablePred ValidMeta := fun m =>
  inferInstanceAs (Decidable (∀ p ∈ m, ValidBytes p.1 ∧ ValidBytes p.2))

/-- `NotifyResponseAction` from `src/notify.rs`. -/
inductive NotifyResponseAction where
  /-- When user clicks on the notification -/
  | Default : NotifyResponseAction
  /-- When user closes the notification -/
  | Dismiss : NotifyResponseAction
  /-- The identifier string of the action that the user selected -/
  | Other : String → NotifyResponseAction
deriving DecidableEq, Repr

/-- `NotifyResponse` from `src/notify.rs`. -/
structure NotifyResponse where
  notification_id : String
  action : NotifyResponseAction
  user_input : Option String
  user_metadata : Metadata
deriving DecidableEq, Repr

/-- `NotifyCategoryAction` from `src/notify.rs`. -/
inductive NotifyCategoryAction where
  | Action (identifier : String) (title : String) : NotifyCategoryAction
  | TextInputAction (identifier : String) (title : String)
      (input_button_title : String) (input_placeholder : String) :
      NotifyCategoryAction
deriving DecidableEq, Repr

/-- `NotifyCategory` from `src/notify.rs`. -/
structure NotifyCategory where
  identifier : String
  actions : List NotifyCategoryAction
deriving DecidableEq, Repr

/-- `NotifyBuilder` from `src/notify.rs`. -/
structure NotifyBuilder where
  body : Option String := none
  title : Option String := none
  subtitle : Option String := none
  thread_id : Option String := none
  category_id : Option String := none
  user_metadata : Option Metadata := none
  sound : Option String := none
deriving DecidableEq, Repr

/-- The error taxonomy of `src/error.rs`, restricted to the variants the
claims exercise. `NSError` keeps the code/domain/description fields used
by the authorization handler. -/
inductive Error where
  | NoBundleId : Error
  | NotMainThread : Error
  | NSError (code : Int) (domain : String) (description : String) : Error
  | MultipleRegisterCalls : Error
  | MultipleRegisterCallsListenerLoop : Error
  | Windows (msg : String) : Error
  | FailedToParseUserInfo : Error
  | SettingHandler : Error
  | UrlParse : Error
  | Base64Decode : Error
  | TokioRecv : Error
  | Other (msg : String) : Error
deriving DecidableEq, Repr

instance {ε α : Type} [DecidableEq ε] [DecidableEq α] :
    DecidableEq (Except ε α) := fun x y =>
  match x, y with
  | .ok a, .ok b =>
    if h : a = b then isTrue (by rw [h])
    else isFalse (by intro hc; injection hc; contradiction)
  | .error a, .error b =>
    if h : a = b then isTrue (by rw [h])
    else isFalse (by intro hc; injection hc; contradiction)
  | .ok _, .error _ => isFalse (fun hc => Except.noConfusion hc)
  | .error _, .ok _ => isFalse (fun hc => Except.noConfusion hc)

/-! ## Base64 (RFC 4648 standard alphabet with padding)

Model of `base64::prelude::BASE64_STANDARD` `encode`/`decode` as used by
`encode_deeplink`/`decode_deeplink` in `src/os_impl/windows/builder.rs`.
The decoder demands canonical padding and zero trailing bits, as the
crate's default general-purpose config does. -/

/-- Value `n < 64` to its standard-alphabet character. -/
def b64Char (n : Nat) : Char :=
  if n < 26 then Char.ofNat (65 + n)
  else if n < 52 then Char.ofNat (97 + (n - 26))
  else if n < 62 then Char.ofNat (48 + (n - 52))
  else if n = 62 then '+'
  else '/'

/-- Standard-alphabet character back to its 6-bit value. -/
def b64Val (c : Char) : Option Nat :=
  if 'A' ≤ c ∧ c ≤ 'Z' then some (c.toNat - 65)
  else if 'a' ≤ c ∧ c ≤ 'z' then some (c.toNat - 97 + 26)
  else if '0' ≤ c ∧ c ≤ '9' then some (c.toNat - 48 + 52)
  else if c = '+' then some 62
  else if c = '/' then some 63
  else none

/-- Base64 encoding of a byte list, three bytes to four characters, with
`=` padding. -/
def b64EncodeL : List Nat → List Char
  | [] => []
  | [a] => [b64Char (a / 4), b64Char (a % 4 * 16), '=', '=']
  | [a, b] => [b64Char (a / 4), b64Char (a % 4 * 16 + b / 16),
               b64Char (b % 16 * 4), '=']
  | a :: b :: c :: rest =>
      b64Char (a / 4) :: b64Char (a % 4 * 16 + b / 16) ::
      b64Char (b % 16 * 4 + c / 64) :: b64Char (c % 64) :: b64EncodeL rest

/-- Base64 decoding; `none` models a `base64::DecodeError`. Padding is
accepted only in the final quantum and trailing bits must be zero. -/
def b64DecodeL : List Char → Option (List Nat)
  | [] => some []
  | c0 :: c1 :: c2 :: c3 :: rest =>
    if c2 = '=' then
      if c3 = '=' ∧ rest = [] then
        match b64Val c0, b64Val c1 with
        | some v0, some v1 =>
          if v1 % 16 = 0 then some [v0 * 4 + v1 / 16] else none
        | _, _ => none
      else none
    else if c3 = '=' then
      if rest = [] then
        match b64Val c0, b64Val c1, b64Val c2 with
        | some v0, some v1, some v2 =>
          if v2 % 4 = 0 then
            some [v0 * 4 + v1 / 16, v1 % 16 * 16 + v2 / 4]
          else none
        | _, _, _ => none
      else none
    else
      match b64Val c0, b64Val c1, b64Val c2, b64Val c3, b64DecodeL rest with
      | some v0, some v1, some v2, some v3, some tail =>
        some ((v0 * 4 + v1 / 16) :: (v1 % 16 * 16 + v2 / 4) ::
              (v2 % 4 * 64 + v3) :: tail)
      | _, _, _, _, _ => none
  | _ => none

/-- `base64::prelude::BASE64_STANDARD.encode` on bytes, producing the URL
query component. -/
def base64Encode (bs : List Nat) : String := String.mk (b64EncodeL bs)

/-- `base64::prelude::BASE64_STANDARD.decode` of a query component. -/
def base64Decode (s : String) : Option (List Nat) := b64DecodeL s.data

/-! ## serde_json serialization of `HashMap<String, String>`

`serde_json::to_string` on a string-to-string map emits
`{"k":"v","k2":"v2"}` with no whitespace, escaping `"` and `\`, using the
short escapes for the control bytes 0x08/0x09/0x0A/0x0C/0x0D and
`\u00XX` (lowercase hex) for the remaining control bytes below 0x20; all
other bytes pass through verbatim. `serde_json::from_slice` into
`HashMap<String, String>` is modelled by a parser specialized to exactly
this object-of-strings grammar (without the whitespace tolerance and the
non-ASCII `\uXXXX` forms that the adapter's encoder never produces). -/

/-- Lowercase hexadecimal digit byte, as in serde_json's escape table. -/
def hexDigit (n : Nat) : Nat := if n < 10 then 48 + n else 87 + n

/-- Byte value of a hexadecimal digit byte (serde accepts both cases). -/
def hexVal (b : Nat) : Option Nat :=
  if 48 ≤ b ∧ b ≤ 57 then some (b - 48)
  else if 97 ≤ b ∧ b ≤ 102 then some (b - 87)
  else if 65 ≤ b ∧ b ≤ 70 then some (b - 55)
  else none

/-- serde_json's escaping of one byte inside a JSON string literal. -/
def escByte (b : Nat) : List Nat :=
  if b = 34 then [92, 34]
  else if b = 92 then [92, 92]
  else if b = 8 then [92, 98]
  else if b = 9 then [92, 116]
  else if b = 10 then [92, 110]
  else if b = 12 then [92, 102]
  else if b = 13 then [92, 114]
  else if b < 32 then [92, 117, 48, 48, hexDigit (b / 16), hexDigit (b % 16)]
  else [b]

/-- Escaping of a whole string body. -/
def escBytes : ByteStr → List Nat
  | [] => []
  | b :: rest => escByte b ++ escBytes rest

/-- serde_json's single-character escapes (`\" \\ \/ \b \t \n \f \r`). -/
def unescChar (e : Nat) : Option Nat :=
  if e = 34 then some 34
  else if e = 92 then some 92
  else if e = 47 then some 47
  else if e = 98 then some 8
  else if e = 116 then some 9
  else if e = 110 then some 10
  else if e = 102 then some 12
  else if e = 114 then some 13
  else none

/-- Parses a JSON string body up to and including the closing quote,
returning the unescaped bytes and the unconsumed input. Bare control
bytes are rejected, as serde_json rejects them. `\uXXXX` is modelled for
ASCII code points (the encoder only emits `\u00XX` with `XX < 0x20`). -/
def parseStrBody : List Nat → Option (ByteStr × List Nat)
  | [] => none
  | b :: rest =>
    if b = 34 then some ([], rest)
    else if b = 92 then
      match rest with
      | [] => none
      | e :: rest2 =>
        if e = 117 then
          match rest2 with
          | h1 :: h2 :: h3 :: h4 :: rest3 =>
            match hexVal h1, hexVal h2, hexVal h3, hexVal h4 with
            | some v1, some v2, some v3, some v4 =>
              let v := v1 * 4096 + v2 * 256 + v3 * 16 + v4
              if v < 128 then
                match parseStrBody rest3 with
                | some (s, r) => some (v :: s, r)
                | none => none
              else none
            | _, _, _, _ => none
          | _ => none
        else
          match unescChar e with
          | some c =>
            match parseStrBody rest2 with
            | some (s, r) => some (c :: s, r)
            | none => none
          | none => none
    else if b < 32 then none
    else
      match parseStrBody rest with
      | some (s, r) => some ((b : Nat) :: s, r)
      | none => none

/-- The bytes of one `"key":"value"` entry followed by either the closing
`}` (last entry) or a `,` and the remaining entries — exactly
serde_json's output shape after the opening `{`. -/
def encodeEntries : Metadata → List Nat
  | [] => [125]
  | (k, v) :: rest =>
      34 :: (escBytes k ++ [34, 58, 34] ++ escBytes v ++ [34] ++
        (match rest with
         | [] => [125]
         | _ => 44 :: encodeEntries rest))

/-- `serde_json::to_string` of a string map (its UTF-8 bytes). -/
def jsonEncodeMeta (m : Metadata) : List Nat := 123 :: encodeEntries m

/-- Parses the entry list of a JSON object of strings (after the opening
`{`), with fuel bounded by the input length. -/
def parseEntries : Nat → List Nat → Option Metadata
  | 0, _ => none
  | _, [] => none
  | fuel + 1, b :: rest =>
    if b = 34 then
      match parseStrBody rest with
      | some (k, 58 :: rest2) =>
        match rest2 with
        | [] => none
        | c :: rest3 =>
          if c = 34 then
            match parseStrBody rest3 with
            | some (v, rest4) =>
              match rest4 with
              | [] => none
              | d :: rest5 =>
                if d = 125 then
                  if rest5 = [] then some [(k, v)] else none
                else if d = 44 then
                  match parseEntries fuel rest5 with
                  | some t => some ((k, v) :: t)
                  | none => none
                else none
            | none => none
          else none
      | _ => none
    else none

/-- `serde_json::from_slice::<HashMap<String, String>>` on the grammar
the adapter produces; `none` models a `serde_json::Error`. -/
def jsonParseMeta (bs : List Nat) : Option Metadata :=
  match bs with
  | 123 :: rest =>
    match rest with
    | [125] => some []
    | _ => parseEntries rest.length rest
  | _ => none

/-! ## `url::Url::parse` (restricted model)

`decode_deeplink` uses the `url` crate on links of the shape
`scheme://host/path?query` (its own encoder's output) and on raw
Windows-action argument strings. The model covers the crate's behaviour
for non-special schemes on inputs whose components contain no characters
that the WHATWG parser percent-encodes or forbids: a valid scheme
followed by `:`, then either an authority (`//host`, host ending at `/`
or `?`), a path ending at `?`, and an optional query, or — without
`//` — a cannot-be-a-base URL with no host. Inputs without a valid
scheme fail to parse, as in the crate. -/

/-- The components of a parsed URL that `decode_deeplink` consumes. -/
structure UrlParts where
  scheme : String
  host : Option String
  path : String
  query : Option String
deriving DecidableEq, Repr

/-- First character a scheme may start with (ASCII alpha). -/
def isSchemeStart (c : Char) : Bool := c.isAlpha

/-- Characters allowed inside a scheme. -/
def isSchemeChar (c : Char) : Bool :=
  c.isAlphanum || c = '+' || c = '-' || c = '.'

/-- Splits a character list at the first character satisfying `p`; the
stop character stays at the head of the second component. -/
def spanUntil (p : Char → Bool) : List Char → List Char × List Char
  | [] => ([], [])
  | c :: cs =>
    if p c then ([], c :: cs)
    else
      let (a, b) := spanUntil p cs
      (c :: a, b)

/-- `url::Url::parse`, restricted as described above; `none` models a
`url::ParseError`. -/
def urlParse (s : String) : Option UrlParts :=
  let cs := s.data
  match spanUntil (fun c => c = ':') cs with
  | (sch, ':' :: rest1) =>
    if sch = [] then none
    else if !(isSchemeStart (sch.headD 'a') && sch.all isSchemeChar) then none
    else
      match rest1 with
      | '/' :: '/' :: rest2 =>
        let (host, rest3) := spanUntil (fun c => c = '/' || c = '?') rest2
        let (path, rest4) := spanUntil (fun c => c = '?') rest3
        let query : Option String :=
          match rest4 with
          | '?' :: q => some (String.mk q)
          | _ => none
        some ⟨String.mk sch, some (String.mk host), String.mk path, query⟩
      | _ =>
        let (path, rest2) := spanUntil (fun c => c = '?') rest1
        let query : Option String :=
          match rest2 with
          | '?' :: q => some (String.mk q)
          | _ => none
        some ⟨String.mk sch, none, String.mk path, query⟩
  | _ => none

/-! ## `encode_deeplink` / `decode_deeplink`
(`src/os_impl/windows/builder.rs`) -/

/-- The reserved action token chosen by `encode_deeplink`. -/
def actionString : NotifyResponseAction → String
  | .Default => "__default__"
  | .Dismiss => "__dismiss__"
  | .Other action => action

/-- `encode_deeplink(scheme, action)`: the callback URI
`{scheme}://{notification_id}/{action_string}?{base64(json(metadata))}`.
`serde_json::to_string` on a string map cannot fail, so the
`unwrap_or("{}")` fallback of the source is dead code here. -/
def encode_deeplink (scheme : String) (action : NotifyResponse) : String :=
  let attributeValue := base64Encode (jsonEncodeMeta action.user_metadata)
  scheme ++ "://" ++ action.notification_id ++ "/" ++
    actionString action.action ++ "?" ++ attributeValue

/-- The `match url.path() { "/__default__" | "/__dismiss__" | other }`
arm of `decode_deeplink`. -/
def pathToAction (p : String) : NotifyResponseAction :=
  if p = "/__default__" then .Default
  else if p = "/__dismiss__" then .Dismiss
  else .Other p

/-- `decode_deeplink(link)`: URL parse, base64 + JSON decode of the query
into the metadata (an absent query yields the empty map), the host as the
notification id (missing host yields `""`), and the path matched against
the reserved tokens. -/
def decode_deeplink (link : String) : Except Error NotifyResponse :=
  match urlParse link with
  | none => .error .UrlParse
  | some url =>
    let userMeta : Except Error Metadata :=
      match url.query with
      | none => .ok []
      | some base64Userinfo =>
        match base64Decode base64Userinfo with
        | none => .error .Base64Decode
        | some userInfoBytes =>
          match jsonParseMeta userInfoBytes with
          | none => .error .FailedToParseUserInfo
          | some m => .ok m
    match userMeta with
    | .error e => .error e
    | .ok user_metadata =>
      .ok { notification_id := (url.host.getD ""),
            action := pathToAction url.path,
            user_input := none,
            user_metadata := user_metadata }

/-! ## Windows adapter (`src/os_impl/windows/mod.rs`)

The manager's mutable state is the `OnceLock` handler cell (handlers are
identified by opaque `Nat` ids) and the `RwLock<HashMap>` of categories.
Calls into WinRT are recorded in `WinCall` lists; their success is
supplied by a `WinOracle`, one fixed outcome per native entry point. -/

/-- The WinRT calls the claims observe. -/
inductive WinCall where
  | getHistory : WinCall
  | clear : WinCall
  | clearWithId (appId : String) : WinCall
  | removeGroupedTag (tag : String) (group : String) (appId : String) : WinCall
deriving DecidableEq, Repr

/-- Outcomes of the native calls (the OS environment). -/
structure WinOracle where
  historyOk : Bool
  clearOk : Bool
  clearWithIdOk : Bool
  removeOk : String → Bool

/-- `const MESSAGE_GROUP: &str = "msg-group"`. -/
def MESSAGE_GROUP : String := "msg-group"

/-- `HashMap::insert`: replaces the value at an existing key, otherwise
appends the binding. -/
def hashInsert (m : List (String × NotifyCategory)) (k : String)
    (v : NotifyCategory) : List (String × NotifyCategory) :=
  if m.any (fun p => p.1 = k) then
    m.map (fun p => if p.1 = k then (k, v) else p)
  else m ++ [(k, v)]

/-- `HashMap::get`. -/
def hashLookup (m : List (String × NotifyCategory)) (k : String) :
    Option NotifyCategory :=
  (m.find? (fun p => p.1 = k)).map (fun p => p.2)

/-- The Windows `NotifyManager` state. -/
structure WinManagerState where
  handler_callback : Option Nat
  app_id : String
  notification_protocol : Option String
  categories : List (String × NotifyCategory)
deriving DecidableEq, Repr

/-- `NotifyManager::new_`. -/
def winNew (app_id : String) (notification_protocol : Option String) :
    WinManagerState :=
  { handler_callback := none, app_id, notification_protocol, categories := [] }

/-- `NotifyManager::store_categories`: takes the write lock, clears the
stored map and inserts every category under its identifier. -/
def store_categories (categories : List NotifyCategory) :
    List (String × NotifyCategory) :=
  categories.foldl (fun acc c => hashInsert acc c.identifier c) []

/-- `NotifyManager::register` (Windows): `OnceLock::set` of the handler
fails with `Error::SettingHandler` when a handler is already installed
(leaving the installed handler and the stored categories untouched);
otherwise the handler is stored, the category set replaced, and the
historical notifications re-subscribed (a pure native effect). -/
def winRegister (st : WinManagerState) (handler : Nat)
    (categories : List NotifyCategory) : Except Error Unit × WinManagerState :=
  match st.handler_callback with
  | some _ => (.error .SettingHandler, st)
  | none =>
    let st1 := { st with handler_callback := some handler }
    let st2 := { st1 with categories := store_categories categories }
    (.ok (), st2)

/-- `generate_actions_xml` resolves `category_id` via
`categories.get(category_id)`; a category is resolvable exactly when that
lookup succeeds (otherwise the function logs a warning and emits no
actions). -/
def resolvableCategory (st : WinManagerState) (category_id : String) : Bool :=
  (hashLookup st.categories category_id).isSome

/-- The body of the `TypedEventHandler` built by
`NotifyManager::create_activation_handler`: the response handed to the
caller's handler, or `none` when no handler is registered (the event is
then dropped). `action?` is `get_activated_action`'s result. -/
def create_activation_handler (notification_protocol : Option String)
    (handlerRegistered : Bool) (notification_id : String)
    (user_info : Metadata) (action? : Option String) : Option NotifyResponse :=
  if handlerRegistered then
    some { notification_id := notification_id,
           action :=
             match action? with
             | some actionStr =>
               if notification_protocol.isSome then
                 match decode_deeplink actionStr with
                 | .ok response => response.action
                 | .error _ => .Other actionStr
               else .Other actionStr
             | none => .Default,
           user_input := none,
           user_metadata := user_info }
  else none

/-- `ToastDismissalReason::UserCanceled` (`windows` crate value 0). -/
def ToastDismissalReason.UserCanceled : Int := 0

/-- `ToastDismissalReason::ApplicationHidden`. -/
def ToastDismissalReason.ApplicationHidden : Int := 1

/-- `ToastDismissalReason::TimedOut`. -/
def ToastDismissalReason.TimedOut : Int := 2

/-- The body of the `TypedEventHandler` built by
`NotifyManager::create_dismissal_handler`: only
`Some(ToastDismissalReason::UserCanceled)` reaches a registered handler,
every other reason is logged (`log::debug`) and suppressed. -/
def create_dismissal_handler (handlerRegistered : Bool)
    (notification_id : String) (user_info : Metadata) (reason? : Option Int) :
    Option NotifyResponse :=
  match reason? with
  | some reason =>
    if reason = ToastDismissalReason.UserCanceled then
      if handlerRegistered then
        some { notification_id := notification_id,
               action := .Dismiss,
               user_input := none,
               user_metadata := user_info }
      else none
    else none
  | none => none

/-- `NotifyManager::clear_notifications_by_app_id`: both the `History()`
lookup failure and the `ClearWithId` failure are logged and swallowed;
the function always returns `Ok(())`. -/
def clear_notifications_by_app_id (o : WinOracle) (appId : String) :
    Except Error Unit × List WinCall :=
  if o.historyOk then (.ok (), [.getHistory, .clearWithId appId])
  else (.ok (), [.getHistory])

/-- `NotifyManager::clear_all_notifications`: `History()?` propagates a
failure to obtain the history; a failing `Clear()` falls back to
`clear_notifications_by_app_id` and the operation still returns `Ok`. -/
def clear_all_notifications (o : WinOracle) (appId : String) :
    Except Error Unit × List WinCall :=
  if o.historyOk then
    if o.clearOk then (.ok (), [.getHistory, .clear])
    else
      match clear_notifications_by_app_id o appId with
      | (.ok _, calls) => (.ok (), [.getHistory, .clear] ++ calls)
      | (.error e, calls) => (.error e, [.getHistory, .clear] ++ calls)
  else (.error (.Windows "failed to get history"), [.getHistory])

/-- `NotifyManager::remove_notification_by_id` (Windows): failures of the
history lookup and of `RemoveGroupedTagWithId` are logged and swallowed. -/
def remove_notification_by_id (o : WinOracle) (appId : String) (id : String) :
    List WinCall :=
  if o.historyOk then [.getHistory, .removeGroupedTag id MESSAGE_GROUP appId]
  else [.getHistory]

/-- `NotifyManagerExt::remove_delivered_notifications` (Windows): calls
`remove_notification_by_id` per id and returns `Ok(())`. -/
def winRemoveDelivered (o : WinOracle) (appId : String) (ids : List String) :
    Except Error Unit × List WinCall :=
  (.ok (), (ids.map (remove_notification_by_id o appId)).flatten)

/-- `NotifyManagerExt::remove_all_delivered_notifications` (Windows). -/
def winRemoveAllDelivered (o : WinOracle) (appId : String) :
    Except Error Unit × List WinCall :=
  clear_all_notifications o appId

/-- The Windows `NotifyHandle`. -/
structure WinNotifyHandle where
  id : String
  user_metadata : Metadata
deriving DecidableEq, Repr

/-- `NotifyHandleExt::close` (Windows): logs
`"Windows: Closing notification {id}"` and returns `Ok(())`; it makes no
native call and removes nothing. -/
def winClose (_h : WinNotifyHandle) : Except Error Unit × List WinCall :=
  (.ok (), [])

/-! ## macOS adapter (`src/os_impl/macos/mod.rs`, `builder.rs`)

Delegate objects are identified by opaque `Nat` ids. The
`UNUserNotificationCenter` calls are recorded in `MacCall` lists, and the
thread the operation runs on is the explicit `isMainThread` argument
(`MainThreadMarker::new()` succeeds exactly on the main thread). -/

/-- The UserNotifications calls the claims observe. -/
inductive MacCall where
  | setDelegate (delegate : Nat) : MacCall
  | setNotificationCategories (categories : List NotifyCategory) : MacCall
  | removeDeliveredNotifications (ids : List String) : MacCall
  | removeAllDeliveredNotifications : MacCall
  | addNotificationRequest (id : String) : MacCall
deriving DecidableEq, Repr

/-- The macOS `NotifyManagerInner` state, together with the notification
center's current delegate (native state the manager mutates). -/
structure MacManagerState where
  delegate_reference : Option Nat
  listener_loop : Option Nat
  bundle_id : Option String
  nativeDelegate : Option Nat
deriving DecidableEq, Repr

/-- `NotifyManager::new_` (macOS): empty write-once cells, cached bundle
id, no delegate installed yet. -/
def macNew (bundle_id : Option String) : MacManagerState :=
  { delegate_reference := none, listener_loop := none,
    bundle_id := bundle_id, nativeDelegate := none }

/-- `NotifyManager::register` (macOS): fails off the main thread; then
creates the delegate, installs it with `setDelegate` — before the
write-once `delegate_reference.set`, so a repeated call has already
replaced the installed delegate when it fails with
`MultipleRegisterCalls` — registers the categories and spawns the
listener thread. `newDelegate` is the delegate object this call creates
(its event channel is drained only when this call succeeds and spawns
the listener loop). -/
def macRegister (st : MacManagerState) (isMainThread : Bool)
    (newDelegate : Nat) (categories : List NotifyCategory) :
    Except Error Unit × MacManagerState × List MacCall :=
  if !isMainThread then (.error .NotMainThread, st, [])
  else
    let st1 := { st with nativeDelegate := some newDelegate }
    match st.delegate_reference with
    | some _ =>
      (.error .MultipleRegisterCalls, st1, [.setDelegate newDelegate])
    | none =>
      let st2 := { st1 with delegate_reference := some newDelegate,
                            listener_loop := some newDelegate }
      (.ok (), st2,
       [.setDelegate newDelegate, .setNotificationCategories categories])

/-- Whether interaction events still reach the handler registered with
delegate `d`: the notification center must still point at `d` and the
listener loop draining the channel of `d` must have been spawned. -/
def macHandlerConnected (st : MacManagerState) (d : Nat) : Bool :=
  st.nativeDelegate = some d && st.listener_loop = some d

/-- The macOS `NotifyHandle`. -/
structure MacNotifyHandle where
  id : String
  user_info : Metadata
deriving DecidableEq, Repr

/-- `NotifyHandle::remove_notification_by_id` (macOS):
`ensure_main_thread`, `ensure_bundle_id`, then the native removal.
`mainBundleId` is `NSBundle::mainBundle().bundleIdentifier()`. -/
def macRemoveNotificationById (isMainThread : Bool)
    (mainBundleId : Option String) (notification_id : String) :
    Except Error Unit × List MacCall :=
  if !isMainThread then (.error .NotMainThread, [])
  else if mainBundleId.isNone then (.error .NoBundleId, [])
  else (.ok (), [.removeDeliveredNotifications [notification_id]])

/-- `NotifyHandleExt::close` (macOS): removes this notification by id. -/
def macClose (isMainThread : Bool) (mainBundleId : Option String)
    (h : MacNotifyHandle) : Except Error Unit × List MacCall :=
  macRemoveNotificationById isMainThread mainBundleId h.id

/-- `build_and_send`/`build` (macOS `builder.rs`) followed by `send`'s
await of the completion callback. There is no main-thread check on this
path; `uuid` is the generated `Uuid::new_v4()` and `completion` the
result the native completion handler reports. -/
def macSend (st : MacManagerState) (builder : NotifyBuilder)
    (_isMainThread : Bool) (uuid : String) (completion : Except Error Unit) :
    Except Error MacNotifyHandle × List MacCall :=
  match st.bundle_id with
  | none => (.error .NoBundleId, [])
  | some bundle =>
    let id := uuid ++ "." ++ bundle
    let handle : MacNotifyHandle := ⟨id, builder.user_metadata.getD []⟩
    match completion with
    | .ok _ => (.ok handle, [.addNotificationRequest id])
    | .error e => (.error e, [.addNotificationRequest id])

/-- `NotifyManager::remove_notifications_by_ids` /
`remove_delivered_notifications` (macOS): requires a bundle id (no
main-thread check on this path) and always succeeds. -/
def macRemoveDelivered (st : MacManagerState) (ids : List String) :
    Except Error Unit × List MacCall :=
  match st.bundle_id with
  | none => (.error .NoBundleId, [])
  | some _ => (.ok (), [.removeDeliveredNotifications ids])

/-- `remove_all_delivered_notifications` (macOS). -/
def macRemoveAllDelivered (st : MacManagerState) :
    Except Error Unit × List MacCall :=
  match st.bundle_id with
  | none => (.error .NoBundleId, [])
  | some _ => (.ok (), [.removeAllDeliveredNotifications])

/-- The fields of an `NSError` the authorization handler inspects. -/
structure NSErrorData where
  code : Int
  domain : String
  description : String
deriving DecidableEq, Repr

/-- Rust `str::contains` (substring search). -/
def strContains (s sub : String) : Bool :=
  (List.range (s.data.length + 1)).any
    (fun i => sub.data.isPrefixOf (s.data.drop i))

/-- The body of the block built by
`NotifyManager::create_authorization_handler`: a null error yields the
reported flag; an `NSError` with code 1 whose description contains
`"allowed"` is remapped to `Ok(false)`; any other error is wrapped and
propagated. -/
def create_authorization_handler (authorized : Bool)
    (error? : Option NSErrorData) : Except Error Bool :=
  match error? with
  | none => .ok authorized
  | some e =>
    if e.code = 1 && strContains e.description "allowed" then .ok false
    else .error (.NSError e.code e.domain e.description)

/-- `first_time_ask_for_notification_permission` (macOS):
`ensure_valid_bundle_id` — and no main-thread check, so the calling
thread (`_isMainThread`) does not influence the result — then the
authorization request resolved through the one-shot channel with the
handler's result. -/
def first_time_ask_for_notification_permission (st : MacManagerState)
    (_isMainThread : Bool) (authorized : Bool) (error? : Option NSErrorData) :
    Except Error Bool :=
  match st.bundle_id with
  | none => .error .NoBundleId
  | some _ => create_authorization_handler authorized error?

/-- `is_authorization_status_granted`; `UNAuthorizationStatus` raw values
`NotDetermined = 0, Denied = 1, Authorized = 2, Provisional = 3,
Ephemeral = 4`; unknown values are logged and treated as `false`. -/
def is_authorization_status_granted (status : Int) : Bool :=
  if status = 2 ∨ status = 3 ∨ status = 4 then true
  else if status = 1 ∨ status = 0 then false
  else false

/-- `get_notification_permission_state` (macOS): `ensure_valid_bundle_id`
— and no main-thread check, so the calling thread does not influence the
result — then the settings callback's status. -/
def macGetPermissionState (st : MacManagerState) (_isMainThread : Bool)
    (status : Int) : Except Error Bool :=
  match st.bundle_id with
  | none => .error .NoBundleId
  | some _ => .ok (is_authorization_status_granted status)

/-- The action `decode_deeplink` actually recovers from a link encoded
for action `a` (used to state the corrected round-trip property): the
reserved tokens map back to themselves, a custom identifier comes back
with the path's leading slash prepended (and collides with the reserved
tokens if it happens to equal one). -/
def decodedAction : NotifyResponseAction → NotifyResponseAction
  | .Default => .Default
  | .Dismiss => .Dismiss
  | .Other a =>
    if a = "__default__" then .Default
    else if a = "__dismiss__" then .Dismiss
    else .Other ("/" ++ a)

/-- Characters that the WHATWG URL parser passes through verbatim in the
host, path and query components (the faithful domain of `urlParse`);
the adapter's generated notification ids (uuid prefixes) and typical
action identifiers consist of these. -/
def urlSafeChar (c : Char) : Bool :=
  c.isAlphanum || c = '-' || c = '.' || c = '_' || c = '~'

/-- Safety condition on the action kind fed to `encode_deeplink`. -/
def actionSafe : NotifyResponseAction → Prop
  | .Other a => ∀ c ∈ a.data, urlSafeChar c
  | _ => True

instance : DecidablePred actionSafe := fun a => by
  cases a <;> simp only [actionSafe] <;> infer_instance

/-! # Theorems -/

theorem b64Val_b64Char : ∀ n < 64, b64Val (b64Char n) = some n := by decide

theorem b64Char_ne_eq : ∀ n < 64, b64Char n ≠ '=' := by decide

theorem b64_roundtrip :
    ∀ bs : List Nat, (∀ b ∈ bs, b < 256) →
      b64DecodeL (b64EncodeL bs) = some bs := by
  intro bs h
  induction bs using b64EncodeL.induct with
  | case1 => rfl
  | case2 a =>
    have ha : a < 256 := h a (by simp)
    simp only [b64EncodeL, b64DecodeL, and_self, if_true, if_pos rfl]
    rw [b64Val_b64Char _ (by omega), b64Val_b64Char _ (by omega)]
    have e2 : a % 4 * 16 % 16 = 0 := by omega
    simp [e2]
    omega
  | case3 a b =>
    have ha : a < 256 := h a (by simp)
    have hb : b < 256 := h b (by simp)
    simp only [b64EncodeL, b64DecodeL]
    rw [if_neg (b64Char_ne_eq _ (by omega))]
    simp only [and_self, if_true, if_pos rfl]
    rw [b64Val_b64Char _ (by omega), b64Val_b64Char _ (by omega),
        b64Val_b64Char _ (by omega)]
    have e3 : b % 16 * 4 % 4 = 0 := by omega
    simp [e3]
    omega
  | case4 a b c rest ih =>
    have ha : a < 256 := h a (by simp)
    have hb : b < 256 := h b (by simp)
    have hc : c < 256 := h c (by simp)
    have hrest : ∀ x ∈ rest, x < 256 := fun x hx => h x (by simp [hx])
    simp only [b64EncodeL, b64DecodeL]
    rw [if_neg (b64Char_ne_eq _ (by omega)), if_neg (b64Char_ne_eq _ (by omega))]
    rw [b64Val_b64Char _ (by omega), b64Val_b64Char _ (by omega),
        b64Val_b64Char _ (by omega), b64Val_b64Char _ (by omega),
        ih hrest]
    simp
    omega

theorem base64_roundtrip (bs : List Nat) (h : ∀ b ∈ bs, b < 256) :
    base64Decode (base64Encode bs) = some bs := by
  simpa [base64Decode, base64Encode] using b64_roundtrip bs h

theorem hexVal_hexDigit : ∀ n < 16, hexVal (hexDigit n) = some n := by decide

theorem parseStrBody_esc (s : ByteStr) (rest : List Nat) :
    parseStrBody (escBytes s ++ 34 :: rest) = some (s, rest) := by
  induction s with
  | nil =>
    rw [show escBytes [] ++ 34 :: rest = 34 :: rest by simp [escBytes],
        parseStrBody.eq_def]
    simp
  | cons b tl ih =>
    show parseStrBody (escByte b ++ escBytes tl ++ 34 :: rest) = _
    by_cases h34 : b = 34
    · subst h34
      rw [show escByte 34 = [92, 34] from rfl]
      rw [List.cons_append, List.cons_append, parseStrBody.eq_def]
      simp [unescChar, ih]
    · by_cases h92 : b = 92
      · subst h92
        rw [show escByte 92 = [92, 92] from rfl]
        rw [List.cons_append, List.cons_append, parseStrBody.eq_def]
        simp [unescChar, ih]
      · by_cases h8 : b = 8
        · subst h8
          rw [show escByte 8 = [92, 98] from rfl]
          rw [List.cons_append, List.cons_append, parseStrBody.eq_def]
          simp [unescChar, ih]
        · by_cases h9 : b = 9
          · subst h9
            rw [show escByte 9 = [92, 116] from rfl]
            rw [List.cons_append, List.cons_append, parseStrBody.eq_def]
            simp [unescChar, ih]
          · by_cases h10 : b = 10
            · subst h10
              rw [show escByte 10 = [92, 110] from rfl]
              rw [List.cons_append, List.cons_append, parseStrBody.eq_def]
              simp [unescChar, ih]
            · by_cases h12 : b = 12
              · subst h12
                rw [show escByte 12 = [92, 102] from rfl]
                rw [List.cons_append, List.cons_append, parseStrBody.eq_def]
                simp [unescChar, ih]
              · by_cases h13 : b = 13
                · subst h13
                  rw [show escByte 13 = [92, 114] from rfl]
                  rw [List.cons_append, List.cons_append, parseStrBody.eq_def]
                  simp [unescChar, ih]
                · by_cases hctl : b < 32
                  · have hd1 := hexVal_hexDigit (b / 16) (by omega)
                    have hd2 := hexVal_hexDigit (b % 16) (by omega)
                    rw [show escByte b = [92, 117, 48, 48, hexDigit (b / 16),
                          hexDigit (b % 16)] by
                        simp [escByte, h34, h92, h8, h9, h10, h12, h13, hctl]]
                    rw [List.cons_append, List.cons_append, List.cons_append,
                        List.cons_append, List.cons_append, List.cons_append,
                        parseStrBody.eq_def]
                    simp only [List.nil_append]
                    have h48 : hexVal 48 = some 0 := by norm_num [hexVal]
                    norm_num [h48, hd1, hd2, ih]
                    omega
                  · rw [show escByte b = [b] by
                        simp [escByte, h34, h92, h8, h9, h10, h12, h13, hctl]]
                    rw [List.cons_append, parseStrBody.eq_def]
                    simp only [List.nil_append]
                    simp [h34, h92, hctl, ih]

theorem encodeEntries_length : ∀ m : Metadata, m.length ≤ (encodeEntries m).length := by
  intro m
  induction m with
  | nil => simp [encodeEntries]
  | cons p tl ih =>
    obtain ⟨k, v⟩ := p
    cases tl with
    | nil => simp [encodeEntries]
    | cons q tl2 =>
      simp only [encodeEntries, List.length_cons, List.length_append] at *
      omega

theorem parseEntries_encode :
    ∀ (m : Metadata) (fuel : Nat), m ≠ [] → m.length ≤ fuel →
      parseEntries fuel (encodeEntries m) = some m := by
  intro m
  induction m with
  | nil => intro fuel h; exact absurd rfl h
  | cons p tl ih =>
    intro fuel _ hfuel
    obtain ⟨k, v⟩ := p
    obtain ⟨fuel, rfl⟩ : ∃ f, fuel = f + 1 := by
      refine ⟨fuel - 1, ?_⟩
      simp at hfuel
      omega
    cases tl with
    | nil =>
      rw [show encodeEntries [(k, v)] =
            34 :: (escBytes k ++ 34 :: 58 :: 34 :: (escBytes v ++ 34 :: [125]))
          by simp [encodeEntries]]
      rw [parseEntries.eq_def]
      simp only [if_pos rfl]
      rw [parseStrBody_esc k (58 :: 34 :: (escBytes v ++ 34 :: [125]))]
      simp only [if_pos rfl]
      rw [parseStrBody_esc v [125]]
      simp
    | cons q tl2 =>
      rw [show encodeEntries ((k, v) :: q :: tl2) =
            34 :: (escBytes k ++ 34 :: 58 :: 34 ::
              (escBytes v ++ 34 :: 44 :: encodeEntries (q :: tl2)))
          by simp [encodeEntries]]
      rw [parseEntries.eq_def]
      simp only [if_pos rfl]
      rw [parseStrBody_esc k
            (58 :: 34 :: (escBytes v ++ 34 :: 44 :: encodeEntries (q :: tl2)))]
      simp only [if_pos rfl]
      rw [parseStrBody_esc v (44 :: encodeEntries (q :: tl2))]
      have hlen : (q :: tl2).length ≤ fuel := by
        simp at hfuel ⊢
        omega
      rw [show (44 : Nat) = 44 from rfl]
      simp only []
      rw [ih fuel (by simp) hlen]
      simp

theorem json_roundtrip (m : Metadata) :
    jsonParseMeta (jsonEncodeMeta m) = some m := by
  cases m with
  | nil => rfl
  | cons p tl =>
    rw [jsonEncodeMeta, jsonParseMeta.eq_def]
    have hne : encodeEntries (p :: tl) ≠ [125] := by
      obtain ⟨k, v⟩ := p
      cases tl <;> simp [encodeEntries]
    simp only []
    exact parseEntries_encode (p :: tl) (encodeEntries (p :: tl)).length
      (by simp) (le_trans (by simp) (encodeEntries_length (p :: tl)))

theorem hexDigit_lt : ∀ n < 16, hexDigit n < 256 := by decide

theorem escByte_valid (b : Nat) (hb : b < 256) : ∀ x ∈ escByte b, x < 256 := by
  intro x hx
  unfold escByte at hx
  split_ifs at hx with h1 h2 h3 h4 h5 h6 h7 h8 <;>
    simp only [List.mem_cons, List.not_mem_nil, or_false] at hx
  · omega
  · omega
  · omega
  · omega
  · omega
  · omega
  · omega
  · rcases hx with rfl | rfl | rfl | rfl | rfl | rfl
    · omega
    · omega
    · omega
    · omega
    · exact hexDigit_lt _ (by omega)
    · exact hexDigit_lt _ (by omega)
  · omega

theorem escBytes_valid (s : ByteStr) (hs : ValidBytes s) :
    ∀ x ∈ escBytes s, x < 256 := by
  induction s with
  | nil => simp [escBytes]
  | cons b tl ih =>
    intro x hx
    simp only [escBytes, List.mem_append] at hx
    rcases hx with hx | hx
    · exact escByte_valid b (hs b (by simp)) x hx
    · exact ih (fun y hy => hs y (by simp [hy])) x hx

theorem encodeEntries_valid (m : Metadata) (hm : ValidMeta m) :
    ∀ x ∈ encodeEntries m, x < 256 := by
  induction m with
  | nil => simp [encodeEntries]
  | cons p tl ih =>
    obtain ⟨k, v⟩ := p
    have hk : ValidBytes k := (hm (k, v) (by simp)).1
    have hv : ValidBytes v := (hm (k, v) (by simp)).2
    have htl : ValidMeta tl := fun r hr => hm r (by simp [hr])
    intro x hx
    cases tl with
    | nil =>
      rw [show encodeEntries [(k, v)] =
            34 :: (escBytes k ++ 34 :: 58 :: 34 :: (escBytes v ++ 34 :: [125]))
          by simp [encodeEntries]] at hx
      simp only [List.mem_cons, List.mem_append, List.not_mem_nil,
                 or_false] at hx
      casesm* _ ∨ _
      all_goals first
        | omega
        | exact escBytes_valid k hk x (by assumption)
        | exact escBytes_valid v hv x (by assumption)
    | cons r tl2 =>
      rw [show encodeEntries ((k, v) :: r :: tl2) =
            34 :: (escBytes k ++ 34 :: 58 :: 34 ::
              (escBytes v ++ 34 :: 44 :: encodeEntries (r :: tl2)))
          by simp [encodeEntries]] at hx
      simp only [List.mem_cons, List.mem_append, List.not_mem_nil,
                 or_false] at hx
      casesm* _ ∨ _
      all_goals first
        | omega
        | exact escBytes_valid k hk x (by assumption)
        | exact escBytes_valid v hv x (by assumption)
        | exact ih htl x (by assumption)

theorem jsonEncodeMeta_valid (m : Metadata) (hm : ValidMeta m) :
    ∀ x ∈ jsonEncodeMeta m, x < 256 := by
  intro x hx
  simp only [jsonEncodeMeta, List.mem_cons] at hx
  rcases hx with rfl | hx
  · omega
  · exact encodeEntries_valid m hm x hx

theorem spanUntil_append (p : Char → Bool) (xs : List Char) (y : Char)
    (ys : List Char) (hxs : ∀ c ∈ xs, p c = false) (hy : p y = true) :
    spanUntil p (xs ++ y :: ys) = (xs, y :: ys) := by
  induction xs with
  | nil => simp [spanUntil, hy]
  | cons c cs ih =>
    have hc : p c = false := hxs c (by simp)
    simp [spanUntil, hc, ih (fun d hd => hxs d (by simp [hd]))]

theorem urlSafeChar_not_special (c : Char) (h : urlSafeChar c = true) :
    c ≠ ':' ∧ c ≠ '/' ∧ c ≠ '?' := by
  refine ⟨?_, ?_, ?_⟩ <;> rintro rfl <;> revert h <;> decide

theorem isSchemeChar_ne_colon (c : Char) (h : isSchemeChar c = true) :
    c ≠ ':' := by
  rintro rfl; revert h; decide

theorem urlParse_encoded (scheme id act q : String)
    (hne : scheme.data ≠ [])
    (hstart : isSchemeStart (scheme.data.headD 'a') = true)
    (hscheme : ∀ c ∈ scheme.data, isSchemeChar c = true)
    (hid : ∀ c ∈ id.data, urlSafeChar c = true)
    (hact : ∀ c ∈ act.data, urlSafeChar c = true) :
    urlParse (scheme ++ "://" ++ id ++ "/" ++ act ++ "?" ++ q) =
      some ⟨scheme, some id, "/" ++ act, some q⟩ := by
  have hdata : (scheme ++ "://" ++ id ++ "/" ++ act ++ "?" ++ q).data
      = scheme.data ++ ':' :: '/' :: '/' ::
        (id.data ++ '/' :: (act.data ++ '?' :: q.data)) := by
    show scheme.data ++ (':' :: '/' :: '/' :: []) ++ id.data ++
        ('/' :: []) ++ act.data ++ ('?' :: []) ++ q.data = _
    simp
  have hsp1 : spanUntil (fun c => c = ':')
      (scheme.data ++ ':' :: '/' :: '/' ::
        (id.data ++ '/' :: (act.data ++ '?' :: q.data)))
      = (scheme.data, ':' :: '/' :: '/' ::
        (id.data ++ '/' :: (act.data ++ '?' :: q.data))) := by
    refine spanUntil_append _ _ _ _ ?_ (by simp)
    intro c hc
    simpa using isSchemeChar_ne_colon c (hscheme c hc)
  have hsp2 : spanUntil (fun c => c = '/' || c = '?')
      (id.data ++ '/' :: (act.data ++ '?' :: q.data))
      = (id.data, '/' :: (act.data ++ '?' :: q.data)) := by
    refine spanUntil_append _ _ _ _ ?_ (by simp)
    intro c hc
    obtain ⟨-, h2, h3⟩ := urlSafeChar_not_special c (hid c hc)
    simp [h2, h3]
  have hsp3 : spanUntil (fun c => c = '?')
      ('/' :: (act.data ++ '?' :: q.data))
      = ('/' :: act.data, '?' :: q.data) := by
    have := spanUntil_append (fun c => c = '?') ('/' :: act.data) '?' q.data
      (by
        intro c hc
        simp only [List.mem_cons] at hc
        rcases hc with rfl | hc
        · simp
        · obtain ⟨-, -, h3⟩ := urlSafeChar_not_special c (hact c hc)
          simp [h3])
      (by simp)
    simpa using this
  simp only [urlParse, hdata, hsp1]
  rw [if_neg hne, if_neg (by
    have hstart2 := hstart
    rw [List.headD_eq_head?_getD] at hstart2
    simp [hstart2, List.all_eq_true.mpr hscheme])]
  simp only [hsp2, hsp3]
  rfl

theorem slash_append_inj (a b : String) : ("/" ++ a) = ("/" ++ b) ↔ a = b := by
  constructor
  · intro h
    have h2 : ('/' :: a.data) = ('/' :: b.data) := congrArg String.data h
    have h3 : a.data = b.data := by injection h2
    exact congrArg String.mk h3
  · intro h; rw [h]

theorem pathToAction_slash (a : String) :
    pathToAction ("/" ++ a) =
      (if a = "__default__" then .Default
       else if a = "__dismiss__" then .Dismiss
       else .Other ("/" ++ a)) := by
  unfold pathToAction
  rw [show ("/__default__" : String) = "/" ++ "__default__" from rfl,
      show ("/__dismiss__" : String) = "/" ++ "__dismiss__" from rfl]
  simp only [slash_append_inj]

/-- C1 (amended): decoding the callback URI produced by `encode_deeplink`
recovers the notification id and the metadata mapping exactly, and
recovers the action up to the decoder's path handling: `Default` and
`Dismiss` round-trip, while a custom action `Other(a)` decodes to
`Other("/" ++ a)` — the decoder matches the whole URL path, whose leading
slash the encoder's `{id}/{action}` format introduced — except that a
custom identifier equal to a reserved token decodes as that token. Stated
for components made of URL-safe characters (the adapter's generated ids
are) and byte-valid metadata. -/
theorem claim_C1_roundtrip_amended (scheme id : String)
    (A : NotifyResponseAction) (m : Metadata)
    (h1 : scheme.data ≠ [])
    (h2 : isSchemeStart (scheme.data.headD 'a') = true)
    (h3 : ∀ c ∈ scheme.data, isSchemeChar c = true)
    (h4 : ∀ c ∈ id.data, urlSafeChar c = true)
    (h5 : actionSafe A)
    (h6 : ValidMeta m) :
    decode_deeplink (encode_deeplink scheme ⟨id, A, none, m⟩) =
      .ok ⟨id, decodedAction A, none, m⟩ := by
  have hact : ∀ c ∈ (actionString A).data, urlSafeChar c = true := by
    cases A with
    | Default => decide
    | Dismiss => decide
    | Other a => exact h5
  have hurl := urlParse_encoded scheme id (actionString A)
      (base64Encode (jsonEncodeMeta m)) h1 h2 h3 h4 hact
  show decode_deeplink (scheme ++ "://" ++ id ++ "/" ++ actionString A ++ "?"
        ++ base64Encode (jsonEncodeMeta m)) = _
  unfold decode_deeplink
  rw [hurl]
  simp only [base64_roundtrip _ (jsonEncodeMeta_valid m h6), json_roundtrip,
             Option.getD_some, pathToAction_slash]
  cases A with
  | Default => rfl
  | Dismiss => rfl
  | Other a =>
    simp only [decodedAction, actionString]

/-- C1 (witness): the amended round-trip theorem evaluated on a concrete
dismiss-action link with one metadata entry. -/
theorem claim_C1_witness :
    decode_deeplink (encode_deeplink "app"
        ⟨"n1", .Dismiss, none, [([107], [118])]⟩) =
      .ok ⟨"n1", decodedAction .Dismiss, none, [([107], [118])]⟩ :=
  claim_C1_roundtrip_amended "app" "n1" .Dismiss [([107], [118])]
    (by decide) (by decide) (by decide) (by decide) (by decide) (by decide)

/-- C1 (counterexample): the round trip as claimed fails for a custom
action identifier: encoding `Other "reply"` for notification `"n1"` with
empty metadata and decoding yields `Other "/reply"`, not `Other "reply"` —
not the original triple. -/
theorem claim_C1_counterexample :
    decode_deeplink (encode_deeplink "app"
        ⟨"n1", .Other "reply", none, []⟩) =
      .ok ⟨"n1", .Other "/reply", none, []⟩ ∧
    decode_deeplink (encode_deeplink "app"
        ⟨"n1", .Other "reply", none, []⟩) ≠
      .ok ⟨"n1", .Other "reply", none, []⟩ := by
  constructor
  · decide
  · decide

/-- C2: on both adapters the first `register` succeeds and a repeated
`register` fails (`SettingHandler` on Windows, `MultipleRegisterCalls` on
macOS). On Windows the failed second call leaves the first handler and
its categories untouched; on macOS, however, the failed second call has
already executed `setDelegate` with the freshly created delegate — whose
event channel no listener thread ever drains — before the write-once cell
rejects it, so the first registration's handler is disconnected from
subsequent events, contrary to the claim. -/
theorem claim_C2_failed_reregistration :
    (winRegister (winNew "app.id" none) 0 []).1 = .ok () ∧
    ((winRegister (winNew "app.id" none) 0 []).2).handler_callback = some 0 ∧
    winRegister ((winRegister (winNew "app.id" none) 0 []).2) 1 [] =
      (.error .SettingHandler, (winRegister (winNew "app.id" none) 0 []).2) ∧
    (macRegister (macNew (some "com.example.app")) true 0 []).1 = .ok () ∧
    macHandlerConnected
      (macRegister (macNew (some "com.example.app")) true 0 []).2.1 0 = true ∧
    (macRegister
      ((macRegister (macNew (some "com.example.app")) true 0 []).2.1)
      true 1 []).1 = .error .MultipleRegisterCalls ∧
    macHandlerConnected
      (macRegister
        ((macRegister (macNew (some "com.example.app")) true 0 []).2.1)
        true 1 []).2.1 0 = false ∧
    ((macRegister
        ((macRegister (macNew (some "com.example.app")) true 0 []).2.1)
        true 1 []).2.1).nativeDelegate = some 1 := by
  decide

/-- C3 (amended): on macOS only `register` and the by-id removal behind
`close` check the calling thread and fail with `NotMainThread` off the
main thread (leaving the state untouched and making no native call);
`send` and both permission operations perform no thread-affinity check —
their results are independent of the calling thread — and so do not
return `NotMainThread` on account of the calling thread. -/
theorem claim_C3_thread_affinity (st : MacManagerState) (d : Nat)
    (cats : List NotifyCategory) (b : NotifyBuilder) (u : String)
    (c : Except Error Unit) (mb : Option String) (id : String)
    (auth : Bool) (e? : Option NSErrorData) (status : Int) :
    macRegister st false d cats = (.error .NotMainThread, st, []) ∧
    macRemoveNotificationById false mb id = (.error .NotMainThread, []) ∧
    macSend st b false u c = macSend st b true u c ∧
    first_time_ask_for_notification_permission st false auth e? =
      first_time_ask_for_notification_permission st true auth e? ∧
    macGetPermissionState st false status = macGetPermissionState st true status := by
  refine ⟨rfl, rfl, rfl, rfl, rfl⟩

/-- C3 (counterexample): a `send` invoked off the main thread (with a
valid bundle id and a successful native completion) returns the handle,
not the `NotMainThread` error the claim requires for every delegate-
touching operation. -/
theorem claim_C3_counterexample :
    (macSend (macNew (some "com.example.app")) {} false "u" (.ok ())).1 =
      .ok ⟨"u.com.example.app", []⟩ ∧
    (macSend (macNew (some "com.example.app")) {} false "u" (.ok ())).1 ≠
      .error .NotMainThread := by
  constructor
  · decide
  · decide

/-- C4 (amended): an activation event whose opaque action string fails to
decode as a callback URI still reaches the registered handler as
`Other(raw string)` — but with `user_metadata` equal to the `user_info`
recovered from the toast's attached data store when the listeners were
registered, not the empty mapping. -/
theorem claim_C4_degraded_activation (protocol : Option String)
    (hp : protocol.isSome = true) (nid : String) (ui : Metadata)
    (a : String) (e : Error) (hdec : decode_deeplink a = .error e) :
    create_activation_handler protocol true nid ui (some a) =
      some ⟨nid, .Other a, none, ui⟩ := by
  unfold create_activation_handler
  simp [hp, hdec]

/-- C4 (witness): the amended theorem at the undecodable action string
`"hello"` and a nonempty stored `user_info`. -/
theorem claim_C4_witness :
    create_activation_handler (some "app") true "n1" [([107], [118])]
      (some "hello") = some ⟨"n1", .Other "hello", none, [([107], [118])]⟩ :=
  claim_C4_degraded_activation (some "app") rfl "n1" [([107], [118])]
    "hello" .UrlParse (by decide)

/-- C4 (counterexample): for the raw action string `"hello"` (whose
decode fails with a URL parse error) and a notification stored with
metadata `{"k": "v"}`, the handler receives that stored metadata — a
nonempty mapping — not the empty mapping the claim states. -/
theorem claim_C4_counterexample :
    decode_deeplink "hello" = .error .UrlParse ∧
    create_activation_handler (some "app") true "n1" [([107], [118])]
      (some "hello") = some ⟨"n1", .Other "hello", none, [([107], [118])]⟩ ∧
    ([([107], [118])] : Metadata) ≠ [] := by
  refine ⟨by decide, by decide, by decide⟩

/-- C5: a dismissal event with reason `UserCanceled` always hands the
registered handler a `Dismiss` response carrying the notification's id
and stored metadata, and a dismissal event with any other reason
(`ApplicationHidden`, `TimedOut`, unknown values, or a missing reason)
never produces a response, whether or not a handler is registered. -/
theorem claim_C5_dismissal_filtering (nid : String) (ui : Metadata) :
    create_dismissal_handler true nid ui
        (some ToastDismissalReason.UserCanceled) =
      some ⟨nid, .Dismiss, none, ui⟩ ∧
    (∀ reason? : Option Int, reason? ≠ some ToastDismissalReason.UserCanceled →
      ∀ registered : Bool,
        create_dismissal_handler registered nid ui reason? = none) := by
  constructor
  · rfl
  · intro reason? hr registered
    match reason? with
    | none => rfl
    | some r =>
      have : ¬(r = ToastDismissalReason.UserCanceled) := fun h => hr (by rw [h])
      simp [create_dismissal_handler, this]

/-- C5 (witness): the filtering theorem at reason `UserCanceled` (= 0)
and at reason `TimedOut` (= 2). -/
theorem claim_C5_witness :
    create_dismissal_handler true "n1" [] (some 0) =
      some ⟨"n1", .Dismiss, none, []⟩ ∧
    create_dismissal_handler true "n1" [] (some 2) = none :=
  ⟨(claim_C5_dismissal_filtering "n1" []).1,
   (claim_C5_dismissal_filtering "n1" []).2 (some 2) (by decide) true⟩

theorem hashInsert_keys (m : List (String × NotifyCategory)) (k : String)
    (v : NotifyCategory) (j : String)
    (h : ∃ p ∈ hashInsert m k v, p.1 = j) :
    j = k ∨ ∃ p ∈ m, p.1 = j := by
  obtain ⟨p, hp, hpj⟩ := h
  unfold hashInsert at hp
  split_ifs at hp with hany
  · simp only [List.mem_map] at hp
    obtain ⟨q, hq, rfl⟩ := hp
    by_cases hqk : q.1 = k
    · left
      rw [← hpj]
      simp [hqk]
    · right
      refine ⟨q, hq, ?_⟩
      rw [← hpj]
      simp [hqk]
  · simp only [List.mem_append, List.mem_singleton] at hp
    rcases hp with hp | rfl
    · exact Or.inr ⟨p, hp, hpj⟩
    · exact Or.inl hpj.symm

theorem foldl_insert_keys (cats : List NotifyCategory) :
    ∀ (acc : List (String × NotifyCategory)) (j : String),
      (∃ p ∈ cats.foldl (fun acc c => hashInsert acc c.identifier c) acc,
        p.1 = j) →
      (∃ p ∈ acc, p.1 = j) ∨ j ∈ cats.map NotifyCategory.identifier := by
  induction cats with
  | nil => intro acc j h; exact Or.inl h
  | cons c tl ih =>
    intro acc j h
    simp only [List.foldl_cons] at h
    rcases ih _ j h with h2 | h2
    · rcases hashInsert_keys _ _ _ _ h2 with rfl | h3
      · right; simp
      · exact Or.inl h3
    · right; simp [h2]

theorem store_categories_keys (cats : List NotifyCategory) (j : String)
    (h : (hashLookup (store_categories cats) j).isSome = true) :
    j ∈ cats.map NotifyCategory.identifier := by
  have hex : ∃ p ∈ store_categories cats, p.1 = j := by
    unfold hashLookup at h
    cases hf : List.find? (fun p => decide (p.1 = j)) (store_categories cats) with
    | none => rw [hf] at h; simp at h
    | some q =>
      exact ⟨q, List.mem_of_find?_eq_some hf, by
        simpa using List.find?_some hf⟩
  rcases foldl_insert_keys cats [] j hex with h2 | h2
  · simp at h2
  · exact h2

/-- C6 (counterexample): registering `{X}` and then registering `{Y}` on
the same Windows manager does not leave `{Y}` resolvable: the second
`register` fails on the write-once handler cell before it ever reaches
`store_categories`, so `"Y"` is unresolvable while `"X"` — from the
earlier set — still resolves. -/
theorem claim_C6_counterexample :
    (winRegister
        ((winRegister (winNew "app" none) 0 [⟨"X", []⟩]).2) 1 [⟨"Y", []⟩]).1 =
      .error .SettingHandler ∧
    resolvableCategory
      (winRegister
        ((winRegister (winNew "app" none) 0 [⟨"X", []⟩]).2) 1 [⟨"Y", []⟩]).2
      "Y" = false ∧
    resolvableCategory
      (winRegister
        ((winRegister (winNew "app" none) 0 [⟨"X", []⟩]).2) 1 [⟨"Y", []⟩]).2
      "X" = true := by
  refine ⟨by decide, by decide, by decide⟩

/-- C6 (amended): a second `register` on the same manager fails with the
handler-already-set error and leaves the category set of the first
registration untouched; within the one registration that succeeds,
`store_categories` does replace the stored set completely (it clears the
map before inserting), so only identifiers of the newly supplied set are
resolvable afterwards. -/
theorem claim_C6_category_replacement (st : WinManagerState)
    (h0 handler : Nat) (cats : List NotifyCategory) (j : String) :
    (st.handler_callback = some h0 →
      winRegister st handler cats = (.error .SettingHandler, st)) ∧
    (st.handler_callback = none →
      ((winRegister st handler cats).2).categories = store_categories cats) ∧
    ((hashLookup (store_categories cats) j).isSome = true →
      j ∈ cats.map NotifyCategory.identifier) := by
  refine ⟨?_, ?_, store_categories_keys cats j⟩
  · intro h
    unfold winRegister
    rw [h]
  · intro h
    unfold winRegister
    rw [h]

/-- C6 (witness): the amended statement at concrete states — a blocked
second registration, the replaced category map of a fresh registration,
and a resolvable identifier necessarily coming from the registered set. -/
theorem claim_C6_witness :
    winRegister ⟨some 0, "app", none, [("X", ⟨"X", []⟩)]⟩ 1 [⟨"Y", []⟩] =
      (.error .SettingHandler, ⟨some 0, "app", none, [("X", ⟨"X", []⟩)]⟩) ∧
    ((winRegister (winNew "app" none) 0 [⟨"Y", []⟩]).2).categories =
      store_categories [⟨"Y", []⟩] ∧
    "Y" ∈ [NotifyCategory.mk "Y" []].map NotifyCategory.identifier :=
  ⟨(claim_C6_category_replacement ⟨some 0, "app", none, [("X", ⟨"X", []⟩)]⟩
      0 1 [⟨"Y", []⟩] "Y").1 rfl,
   (claim_C6_category_replacement (winNew "app" none) 0 0 [⟨"Y", []⟩] "Y").2.1
      rfl,
   (claim_C6_category_replacement (winNew "app" none) 0 0 [⟨"Y", []⟩] "Y").2.2
      (by decide)⟩

/-- C7: the macOS authorization bridge — with a valid bundle id — maps a
null-error callback to `Ok(authorized)`, remaps the native error with
code 1 whose description contains `"allowed"` (the user-declined pattern)
to `Ok(false)`, and propagates every other native error as a wrapped
`NSError`. -/
theorem claim_C7_permission_decline (st : MacManagerState) (bid : String)
    (hb : st.bundle_id = some bid) (t auth : Bool) (e : NSErrorData) :
    first_time_ask_for_notification_permission st t auth none = .ok auth ∧
    (e.code = 1 → strContains e.description "allowed" = true →
      first_time_ask_for_notification_permission st t auth (some e) =
        .ok false) ∧
    (¬(e.code = 1 ∧ strContains e.description "allowed" = true) →
      first_time_ask_for_notification_permission st t auth (some e) =
        .error (.NSError e.code e.domain e.description)) := by
  refine ⟨?_, ?_, ?_⟩
  · unfold first_time_ask_for_notification_permission
      create_authorization_handler
    rw [hb]
  · intro h1 h2
    unfold first_time_ask_for_notification_permission
      create_authorization_handler
    rw [hb]
    simp [h1, h2]
  · intro h
    unfold first_time_ask_for_notification_permission
      create_authorization_handler
    rw [hb]
    dsimp only
    rw [if_neg]
    simp only [Bool.and_eq_true, decide_eq_true_eq]
    exact h

/-- C7 (witness): the bridge theorem at a null error, at the concrete
declined-permission `NSError` (code 1, description mentioning
"allowed"), and at an unrelated error that must be propagated. -/
theorem claim_C7_witness :
    first_time_ask_for_notification_permission (macNew (some "com.example.app"))
      false true none = .ok true ∧
    first_time_ask_for_notification_permission (macNew (some "com.example.app"))
      false true (some ⟨1, "UNErrorDomain",
        "Notifications are not allowed for this application"⟩) = .ok false ∧
    first_time_ask_for_notification_permission (macNew (some "com.example.app"))
      false false (some ⟨2, "NSCocoaErrorDomain", "boom"⟩) =
      .error (.NSError 2 "NSCocoaErrorDomain" "boom") :=
  ⟨(claim_C7_permission_decline (macNew (some "com.example.app"))
      "com.example.app" rfl false true
      ⟨1, "UNErrorDomain",
        "Notifications are not allowed for this application"⟩).1,
   (claim_C7_permission_decline (macNew (some "com.example.app"))
      "com.example.app" rfl false true
      ⟨1, "UNErrorDomain",
        "Notifications are not allowed for this application"⟩).2.1
      rfl (by decide),
   (claim_C7_permission_decline (macNew (some "com.example.app"))
      "com.example.app" rfl false false
      ⟨2, "NSCocoaErrorDomain", "boom"⟩).2.2 (by decide)⟩

/-- C8: removal is best-effort. `remove_delivered_notifications`
(Windows) returns `Ok` for any id list, whatever the per-id native
results; `clear_all_notifications` returns `Ok` whenever the history is
obtainable — also when the primary `Clear()` fails, in which case the
app-id-scoped fallback `ClearWithId` is attempted and its own failure is
swallowed; and the macOS `remove_delivered_notifications` returns `Ok`
for any ids once a bundle id is configured. -/
theorem claim_C8_best_effort_removal (o : WinOracle) (appId : String)
    (ids : List String) (st : MacManagerState) (bid : String) :
    (winRemoveDelivered o appId ids).1 = .ok () ∧
    (o.historyOk = true → (clear_all_notifications o appId).1 = .ok ()) ∧
    (o.historyOk = true → o.clearOk = false →
      WinCall.clearWithId appId ∈ (clear_all_notifications o appId).2) ∧
    (st.bundle_id = some bid → (macRemoveDelivered st ids).1 = .ok ()) := by
  refine ⟨rfl, ?_, ?_, ?_⟩
  · intro h
    unfold clear_all_notifications clear_notifications_by_app_id
    by_cases hc : o.clearOk = true
    · simp [h, hc]
    · simp only [Bool.not_eq_true] at hc
      simp [h, hc]
  · intro h hc
    unfold clear_all_notifications clear_notifications_by_app_id
    simp [h, hc]
  · intro h
    unfold macRemoveDelivered
    rw [h]

/-- C8 (witness): the removal theorem at an oracle whose history is
available but whose `Clear()` and `ClearWithId` both fail, a two-element
id list, and a macOS manager with a bundle id. -/
theorem claim_C8_witness :
    (winRemoveDelivered ⟨true, false, false, fun _ => false⟩ "app"
      ["a", "b"]).1 = .ok () ∧
    (clear_all_notifications ⟨true, false, false, fun _ => false⟩ "app").1 =
      .ok () ∧
    WinCall.clearWithId "app" ∈
      (clear_all_notifications ⟨true, false, false, fun _ => false⟩ "app").2 ∧
    (macRemoveDelivered (macNew (some "b.id")) ["x"]).1 = .ok () :=
  ⟨(claim_C8_best_effort_removal ⟨true, false, false, fun _ => false⟩ "app"
      ["a", "b"] (macNew (some "b.id")) "b.id").1,
   (claim_C8_best_effort_removal ⟨true, false, false, fun _ => false⟩ "app"
      ["a", "b"] (macNew (some "b.id")) "b.id").2.1 rfl,
   (claim_C8_best_effort_removal ⟨true, false, false, fun _ => false⟩ "app"
      ["a", "b"] (macNew (some "b.id")) "b.id").2.2.1 rfl rfl,
   (claim_C8_best_effort_removal ⟨true, false, false, fun _ => false⟩ "app"
      ["a", "b"] (macNew (some "b.id")) "b.id").2.2.2 rfl⟩

/-- C9: every `NotifyResponse` the Windows adapter produces — from an
activation event, from a dismissal event, or from decoding a callback
URI — carries `user_input = none`; typed text is never forwarded on this
adapter. -/
theorem claim_C9_no_user_input (p : Option String) (registered : Bool)
    (nid : String) (ui : Metadata) (a? : Option String) (r? : Option Int)
    (link : String) (r : NotifyResponse) :
    (create_activation_handler p registered nid ui a? = some r →
      r.user_input = none) ∧
    (create_dismissal_handler registered nid ui r? = some r →
      r.user_input = none) ∧
    (decode_deeplink link = .ok r → r.user_input = none) := by
  refine ⟨?_, ?_, ?_⟩
  · intro h
    unfold create_activation_handler at h
    cases registered with
    | false => simp at h
    | true =>
      simp only [if_true] at h
      injection h with h2
      rw [← h2]
  · intro h
    unfold create_dismissal_handler at h
    cases r? with
    | none => exact Option.noConfusion h
    | some v =>
      dsimp only at h
      split_ifs at h
      all_goals injection h with h2
      all_goals rw [← h2]
  · intro h
    unfold decode_deeplink at h
    cases hu : urlParse link with
    | none =>
      rw [hu] at h
      exact Except.noConfusion h
    | some url =>
      rw [hu] at h
      dsimp only at h
      cases hq : url.query with
      | none =>
        rw [hq] at h
        dsimp only at h
        injection h with h2
        rw [← h2]
      | some q =>
        rw [hq] at h
        dsimp only at h
        cases hb : base64Decode q with
        | none =>
          rw [hb] at h
          exact Except.noConfusion h
        | some bytes =>
          rw [hb] at h
          dsimp only at h
          cases hj : jsonParseMeta bytes with
          | none =>
            rw [hj] at h
            exact Except.noConfusion h
          | some m =>
            rw [hj] at h
            dsimp only at h
            injection h with h2
            rw [← h2]

/-- C9 (witness): the no-text theorem evaluated on a decoded default-tap
link. -/
theorem claim_C9_witness :
    decode_deeplink "app://n1/__default__?e30=" =
      .ok ⟨"n1", .Default, none, []⟩ ∧
    (⟨"n1", .Default, none, []⟩ : NotifyResponse).user_input = none :=
  ⟨by decide,
   (claim_C9_no_user_input (some "app") true "n1" [] none none
      "app://n1/__default__?e30=" ⟨"n1", .Default, none, []⟩).2.2 (by decide)⟩

/-- C10: `close()` behaves differently behind the same interface: the
Windows handle's `close` always returns `Ok` and performs no native
removal call (it only logs), while the macOS handle's `close` fails with
`NotMainThread` off the main thread, fails with `NoBundleId` without a
bundle identifier, and otherwise removes exactly this notification's id
from the notification center. -/
theorem claim_C10_close_asymmetry (h : WinNotifyHandle) (mh : MacNotifyHandle)
    (mb : Option String) (bid : String) :
    winClose h = (.ok (), []) ∧
    macClose false mb mh = (.error .NotMainThread, []) ∧
    macClose true none mh = (.error .NoBundleId, []) ∧
    macClose true (some bid) mh =
      (.ok (), [.removeDeliveredNotifications [mh.id]]) := by
  refine ⟨rfl, rfl, rfl, rfl⟩

end UserNotify
